import Mathlib

/-!
Verification of the SmithTool RF matching core against its specification.

The C++ sources are shallowly embedded: `double` becomes `ℝ`,
`std::complex<double>` becomes `ℂ`, `std::vector` becomes `List`, and the
enumerations / structs of `component.h`, `matching.h`, `trace.h` become
inductive types and structures.  GUI-presentation fields (`QString` labels,
`QColor` colors) are omitted from the embedded state; every numeric and
structural field is kept.
-/

namespace SmithTool

noncomputable section

open Complex (I)

/-- The constant named PI in smithmath.h: a decimal literal, kept verbatim. -/
def cPI : ℝ := 3.14159265358979323846

/-- SmithMath::impedanceToGamma from smithmath.cpp. -/
def impedanceToGamma (z : ℂ) (z0 : ℝ) : ℂ :=
  (z - (z0 : ℂ)) / (z + (z0 : ℂ))

/-- SmithMath::gammaToImpedance from smithmath.cpp, with its sentinel guard. -/
def gammaToImpedance (gamma : ℂ) (z0 : ℝ) : ℂ :=
  if Complex.abs (1 - gamma) < 1e-12 then ⟨1e12, 0⟩
  else (z0 : ℂ) * (1 + gamma) / (1 - gamma)

/-- ComponentType from component.h (the second document concatenated into
src/src/core/smithmath.h). -/
inductive ComponentType where
  | Resistor
  | Inductor
  | Capacitor
  | TransmissionLine
  | OpenStub
  | ShortStub
  | None
  deriving DecidableEq

/-- ConnectionType from component.h: the two members Series and Shunt. -/
inductive ConnectionType where
  | Series
  | Shunt
  deriving DecidableEq

/-- ComponentValue from component.h: a component kind, a base-unit magnitude
in ohms/henries/farads, and the frequency it was computed for. -/
structure ComponentValue where
  type : ComponentType
  value : ℝ
  frequency : ℝ
  deriving DecidableEq

/-- The ComponentValue() default constructor from component.h: the member
initializers give type None, value 0.0 and frequency 1e9. -/
def ComponentValue.mkDefault : ComponentValue :=
  ⟨ComponentType.None, 0, 1e9⟩

/-- ComponentCalculator::calculateInductance from component.cpp. -/
def calculateInductance (x freq : ℝ) : ComponentValue :=
  if freq < 1e-12 then ⟨ComponentType.Inductor, 0, freq⟩
  else ⟨ComponentType.Inductor, x / (2 * cPI * freq), freq⟩

/-- ComponentCalculator::calculateCapacitance from component.cpp. -/
def calculateCapacitance (x freq : ℝ) : ComponentValue :=
  if freq < 1e-12 ∨ |x| < 1e-12 then ⟨ComponentType.Capacitor, 0, freq⟩
  else ⟨ComponentType.Capacitor, -1 / (2 * cPI * freq * x), freq⟩

/-- ComponentCalculator::inductorReactance from component.cpp. -/
def inductorReactance (lHenry freq : ℝ) : ℝ :=
  2 * cPI * freq * lHenry

/-- ComponentCalculator::capacitorSusceptance from component.cpp. -/
def capacitorSusceptance (cFarad freq : ℝ) : ℝ :=
  2 * cPI * freq * cFarad

/-- ComponentCalculator::calculateSeriesComponent from component.cpp. -/
def calculateSeriesComponent (zCurrent zTarget : ℂ) (freq : ℝ) : ComponentValue :=
  let deltaX := zTarget.im - zCurrent.im
  if |deltaX| < 1e-12 then ComponentValue.mkDefault
  else if 0 < deltaX then calculateInductance deltaX freq
  else calculateCapacitance deltaX freq

/-- ComponentCalculator::calculateShuntComponent from component.cpp. -/
def calculateShuntComponent (yCurrent yTarget : ℂ) (freq : ℝ) : ComponentValue :=
  let deltaB := yTarget.im - yCurrent.im
  if |deltaB| < 1e-12 then ComponentValue.mkDefault
  else if 0 < deltaB then ⟨ComponentType.Capacitor, deltaB / (2 * cPI) / freq, freq⟩
  else ⟨ComponentType.Inductor, -1 / (2 * cPI * freq * deltaB), freq⟩

/-- MatchingTopology from matching.h. -/
inductive MatchingTopology where
  | LSection
  | LSection_Reversed
  | PiNetwork
  | TNetwork
  | SingleStubOpen
  | SingleStubShort
  | QuarterWave
  deriving DecidableEq

/-- MatchingElement from matching.h (the QString label is presentation-only
and omitted). -/
structure MatchingElement where
  type : ComponentType
  connection : ConnectionType
  value : ℝ
  deriving DecidableEq

/-- MatchingSolution from matching.h (the QString description is
presentation-only and omitted). -/
structure MatchingSolution where
  topology : MatchingTopology
  elements : List MatchingElement
  frequency : ℝ
  sourceZ : ℂ
  loadZ : ℂ
  valid : Bool
  deriving DecidableEq

/-- The state of a MatchingCalculator from matching.h: source impedance,
load impedance, frequency and reference impedance. -/
structure MatchingCalculator where
  sourceZ : ℂ
  loadZ : ℂ
  frequency : ℝ
  z0 : ℝ

/-- MatchingCalculator::reactanceToInductance from matching.cpp. -/
def reactanceToInductance (x freq : ℝ) : ℝ :=
  if freq ≤ 0 then 0 else x / (2 * cPI * freq)

/-- MatchingCalculator::reactanceToCapacitance from matching.cpp. -/
def reactanceToCapacitance (x freq : ℝ) : ℝ :=
  if freq ≤ 0 ∨ x = 0 then 0 else -1 / (2 * cPI * freq * x)

/-- MatchingCalculator::susceptanceToCapacitance from matching.cpp. -/
def susceptanceToCapacitance (b freq : ℝ) : ℝ :=
  if freq ≤ 0 then 0 else b / (2 * cPI * freq)

/-- MatchingCalculator::susceptanceToInductance from matching.cpp. -/
def susceptanceToInductance (b freq : ℝ) : ℝ :=
  if freq ≤ 0 ∨ b = 0 then 0 else -1 / (2 * cPI * freq * b)

/-- MatchingCalculator::createLSectionSolution from matching.cpp. -/
def createLSectionSolution (mc : MatchingCalculator)
    (xSeries bShunt : ℝ) (shuntFirst : Bool) : MatchingSolution :=
  let shuntElem : MatchingElement :=
    if 0 < bShunt then
      ⟨ComponentType.Capacitor, ConnectionType.Shunt,
        susceptanceToCapacitance bShunt mc.frequency⟩
    else
      ⟨ComponentType.Inductor, ConnectionType.Shunt,
        susceptanceToInductance bShunt mc.frequency⟩
  let seriesElem : MatchingElement :=
    if 0 < xSeries then
      ⟨ComponentType.Inductor, ConnectionType.Series,
        reactanceToInductance xSeries mc.frequency⟩
    else
      ⟨ComponentType.Capacitor, ConnectionType.Series,
        reactanceToCapacitance xSeries mc.frequency⟩
  { topology := if shuntFirst then MatchingTopology.LSection
                else MatchingTopology.LSection_Reversed
    elements := if shuntFirst then [shuntElem, seriesElem]
                else [seriesElem, shuntElem]
    frequency := mc.frequency
    sourceZ := mc.sourceZ
    loadZ := mc.loadZ
    valid := true }

/-- MatchingCalculator::calculateLSection from matching.cpp: three branches on
Re(Zs) versus Re(Zl), guarded by positive source and load resistance. -/
def calculateLSection (mc : MatchingCalculator) : List MatchingSolution :=
  let rs := mc.sourceZ.re
  let xs := mc.sourceZ.im
  let rl := mc.loadZ.re
  let xl := mc.loadZ.im
  if rs ≤ 0 ∨ rl ≤ 0 then []
  else if rl < rs then
    let q := Real.sqrt (rs / rl - 1)
    [createLSectionSolution mc (q * rl - xl) (q / rs) true,
     createLSectionSolution mc (-(q * rl) - xl) (-(q / rs)) true]
  else if rs < rl then
    let q := Real.sqrt (rl / rs - 1)
    [createLSectionSolution mc (q * rs - xs) (q / rl) false,
     createLSectionSolution mc (-(q * rs) - xs) (-(q / rl)) false]
  else if 1e-12 < |xl - xs| then
    let xCancel := -(xl - xs)
    let elem : MatchingElement :=
      if 0 < xCancel then
        ⟨ComponentType.Inductor, ConnectionType.Series,
          reactanceToInductance xCancel mc.frequency⟩
      else
        ⟨ComponentType.Capacitor, ConnectionType.Series,
          reactanceToCapacitance xCancel mc.frequency⟩
    [{ topology := MatchingTopology.LSection
       elements := [elem]
       frequency := mc.frequency
       sourceZ := mc.sourceZ
       loadZ := mc.loadZ
       valid := true }]
  else []

/-- The virtual resistance of MatchingCalculator::calculatePiNetwork. -/
def piRVirt (rs rl targetQ : ℝ) : ℝ :=
  min rs rl / (1 + targetQ * targetQ)

/-- The source-side Q factor of MatchingCalculator::calculatePiNetwork. -/
def piQ1 (rs rl targetQ : ℝ) : ℝ :=
  Real.sqrt (rs / piRVirt rs rl targetQ - 1)

/-- The load-side Q factor of MatchingCalculator::calculatePiNetwork. -/
def piQ2 (rs rl targetQ : ℝ) : ℝ :=
  Real.sqrt (rl / piRVirt rs rl targetQ - 1)

/-- MatchingCalculator::calculatePiNetwork from matching.cpp: the
virtual-resistor method, producing one shunt-C / series-L / shunt-C
solution. -/
def calculatePiNetwork (mc : MatchingCalculator) (targetQ : ℝ) :
    List MatchingSolution :=
  let rs := mc.sourceZ.re
  let rl := mc.loadZ.re
  if rs ≤ 0 ∨ rl ≤ 0 then []
  else
    let rVirt := piRVirt rs rl targetQ
    let q1 := piQ1 rs rl targetQ
    let b1 := q1 / rs
    let x1 := q1 * rVirt
    let q2 := piQ2 rs rl targetQ
    let b2 := q2 / rl
    let x2 := q2 * rVirt
    let xTotal := x1 + x2
    [{ topology := MatchingTopology.PiNetwork
       elements :=
         [⟨ComponentType.Capacitor, ConnectionType.Shunt,
            susceptanceToCapacitance b1 mc.frequency⟩,
          ⟨ComponentType.Inductor, ConnectionType.Series,
            reactanceToInductance xTotal mc.frequency⟩,
          ⟨ComponentType.Capacitor, ConnectionType.Shunt,
            susceptanceToCapacitance b2 mc.frequency⟩]
       frequency := mc.frequency
       sourceZ := mc.sourceZ
       loadZ := mc.loadZ
       valid := true }]

/-- MatchingCalculator::calculateTNetwork from matching.cpp. -/
def calculateTNetwork (mc : MatchingCalculator) (targetQ : ℝ) :
    List MatchingSolution :=
  let rs := mc.sourceZ.re
  let rl := mc.loadZ.re
  if rs ≤ 0 ∨ rl ≤ 0 then []
  else
    let rVirt := max rs rl * (1 + targetQ * targetQ)
    let q1 := Real.sqrt (rVirt / rs - 1)
    let x1 := q1 * rs
    let b := q1 / rVirt
    let q2 := Real.sqrt (rVirt / rl - 1)
    let x2 := q2 * rl
    let b2 := q2 / rVirt
    let bTotal := b + b2
    [{ topology := MatchingTopology.TNetwork
       elements :=
         [⟨ComponentType.Inductor, ConnectionType.Series,
            reactanceToInductance x1 mc.frequency⟩,
          ⟨ComponentType.Capacitor, ConnectionType.Shunt,
            susceptanceToCapacitance bTotal mc.frequency⟩,
          ⟨ComponentType.Inductor, ConnectionType.Series,
            reactanceToInductance x2 mc.frequency⟩]
       frequency := mc.frequency
       sourceZ := mc.sourceZ
       loadZ := mc.loadZ
       valid := true }]

/-- The normalized load admittance computed at the top of
MatchingCalculator::calculateSingleStub. -/
def stubYL (mc : MatchingCalculator) : ℂ :=
  1 / (mc.loadZ / (mc.z0 : ℂ))

/-- The first tan(beta*d) root computed by
MatchingCalculator::calculateSingleStub (the + branch of the square root,
with the g = 1 special case). -/
def stubT1 (mc : MatchingCalculator) : ℝ :=
  let g := (stubYL mc).re
  let b := (stubYL mc).im
  if |g - 1| < 1e-10 then -b / 2
  else (b + Real.sqrt (g * ((1 - g) * (1 - g) + b * b) / g)) / (g - 1)

/-- The second tan(beta*d) root computed by
MatchingCalculator::calculateSingleStub (the - branch of the square root,
with the g = 1 special case). -/
def stubT2 (mc : MatchingCalculator) : ℝ :=
  let g := (stubYL mc).re
  let b := (stubYL mc).im
  if |g - 1| < 1e-10 then -b / 2
  else (b - Real.sqrt (g * ((1 - g) * (1 - g) + b * b) / g)) / (g - 1)

/-- One iteration of the emission loop of
MatchingCalculator::calculateSingleStub: for a tan root t, the open-stub and
the short-stub solution at that stub position. -/
def stubPair (mc : MatchingCalculator) (lambda beta : ℝ) (yL : ℂ) (t : ℝ) :
    List MatchingSolution :=
  let d0 := Real.arctan t / beta
  let d := if d0 < 0 then d0 + lambda / 2 else d0
  let yIn := (yL + I * (t : ℂ)) / (1 + I * (t : ℂ) * yL)
  let bStub := -yIn.im
  let lOpen0 := Real.arctan bStub / beta
  let lOpen := if lOpen0 < 0 then lOpen0 + lambda / 2 else lOpen0
  let lShort0 := -Real.arctan (1 / bStub) / beta
  let lShort := if lShort0 < 0 then lShort0 + lambda / 2 else lShort0
  [{ topology := MatchingTopology.SingleStubOpen
     elements :=
       [⟨ComponentType.TransmissionLine, ConnectionType.Series, d⟩,
        ⟨ComponentType.OpenStub, ConnectionType.Shunt, lOpen⟩]
     frequency := mc.frequency
     sourceZ := mc.sourceZ
     loadZ := mc.loadZ
     valid := true },
   { topology := MatchingTopology.SingleStubShort
     elements :=
       [⟨ComponentType.TransmissionLine, ConnectionType.Series, d⟩,
        ⟨ComponentType.ShortStub, ConnectionType.Shunt, lShort⟩]
     frequency := mc.frequency
     sourceZ := mc.sourceZ
     loadZ := mc.loadZ
     valid := true }]

/-- MatchingCalculator::calculateSingleStub from matching.cpp.  The loop over
the two tan roots is unrolled into two stubPair calls. -/
def calculateSingleStub (mc : MatchingCalculator) : List MatchingSolution :=
  let yL := stubYL mc
  let g := yL.re
  let b := yL.im
  if |g - 1| < 1e-10 ∧ |b| < 1e-10 then []
  else if 0 < g then
    let lambda := 3e8 / mc.frequency
    let beta := 2 * cPI / lambda
    if |g - 1| < 1e-10 then
      stubPair mc lambda beta yL (stubT1 mc) ++
        stubPair mc lambda beta yL (stubT2 mc)
    else if 1e-10 < |g - 1| then
      stubPair mc lambda beta yL (stubT1 mc) ++
        stubPair mc lambda beta yL (stubT2 mc)
    else []
  else []

/-- MatchingCalculator::calculateQuarterWave from matching.cpp: the purely
resistive branch, the reactance-cancelling branch, and the empty fallback. -/
def calculateQuarterWave (mc : MatchingCalculator) : List MatchingSolution :=
  let rl := mc.loadZ.re
  let xl := mc.loadZ.im
  let rs := mc.sourceZ.re
  if |xl| < 1e-10 ∧ 0 < rl ∧ 0 < rs then
    let zqw := Real.sqrt (rs * rl)
    [{ topology := MatchingTopology.QuarterWave
       elements :=
         [⟨ComponentType.TransmissionLine, ConnectionType.Series, zqw⟩]
       frequency := mc.frequency
       sourceZ := mc.sourceZ
       loadZ := mc.loadZ
       valid := true }]
  else if 0 < rl then
    let xCancel := -xl
    let zqw := Real.sqrt (rs * rl)
    let elem1 : MatchingElement :=
      if 0 < xCancel then
        ⟨ComponentType.Inductor, ConnectionType.Series,
          reactanceToInductance xCancel mc.frequency⟩
      else
        ⟨ComponentType.Capacitor, ConnectionType.Series,
          reactanceToCapacitance xCancel mc.frequency⟩
    [{ topology := MatchingTopology.QuarterWave
       elements :=
         [elem1, ⟨ComponentType.TransmissionLine, ConnectionType.Series, zqw⟩]
       frequency := mc.frequency
       sourceZ := mc.sourceZ
       loadZ := mc.loadZ
       valid := true }]
  else []

/-- MatchingCalculator::calculateAll from matching.cpp: the concatenation of
the L-section, Pi-network (default Q = 2.0) and T-network (default Q = 2.0)
candidate lists, in that order. -/
def calculateAll (mc : MatchingCalculator) : List MatchingSolution :=
  calculateLSection mc ++ calculatePiNetwork mc 2 ++ calculateTNetwork mc 2

/-- TracePoint from trace.h: reflection coefficient, impedance and frequency
of one sample on a trajectory. -/
structure TracePoint where
  gamma : ℂ
  impedance : ℂ
  frequency : ℝ
  deriving DecidableEq

/-- The TracePoint default constructor from trace.h:
gamma (0,0), impedance (50,0), frequency 1e9. -/
def TracePoint.mkDefault : TracePoint :=
  ⟨0, ⟨50, 0⟩, 1e9⟩

instance : Inhabited TracePoint := ⟨TracePoint.mkDefault⟩

/-- TraceType from trace.h. -/
inductive TraceType where
  | ConstantR
  | ConstantX
  | ConstantG
  | ConstantB
  | SParam
  | Custom
  deriving DecidableEq

/-- TraceSegment from trace.h (QColor color and QString label are
presentation-only and omitted). -/
structure TraceSegment where
  points : List TracePoint
  type : TraceType
  componentType : ComponentType
  connectionType : ConnectionType
  componentValue : ℝ
  deriving DecidableEq

/-- The TraceSegment default constructor from trace.h: no points, Custom
type, None component, Series connection, zero value. -/
def TraceSegment.mkDefault : TraceSegment :=
  ⟨[], TraceType.Custom, ComponentType.None, ConnectionType.Series, 0⟩

instance : Inhabited TraceSegment := ⟨TraceSegment.mkDefault⟩

/-- TraceSegment::startPoint from trace.h: the first point, or a default
TracePoint when the segment is empty. -/
def TraceSegment.startPoint (s : TraceSegment) : TracePoint :=
  s.points.head?.getD TracePoint.mkDefault

/-- TraceSegment::endPoint from trace.h: the last point, or a default
TracePoint when the segment is empty. -/
def TraceSegment.endPoint (s : TraceSegment) : TracePoint :=
  s.points.getLast?.getD TracePoint.mkDefault

/-- The state of a MatchingTrace from trace.h: source and load impedance,
reference impedance, frequency, and the ordered segment chain. -/
structure MatchingTrace where
  sourceZ : ℂ
  loadZ : ℂ
  z0 : ℝ
  frequency : ℝ
  segments : List TraceSegment

/-- MatchingTrace::numSegments from trace.h. -/
def MatchingTrace.numSegments (tr : MatchingTrace) : ℕ :=
  tr.segments.length

/-- MatchingTrace::segment from trace.cpp: an out-of-range index yields the
static empty sentinel segment. -/
def MatchingTrace.segment (tr : MatchingTrace) (index : ℤ) : TraceSegment :=
  if index < 0 ∨ (tr.numSegments : ℤ) ≤ index then TraceSegment.mkDefault
  else (tr.segments.get? index.toNat).getD TraceSegment.mkDefault

/-- MatchingTrace::addSegment from trace.cpp. -/
def MatchingTrace.addSegment (tr : MatchingTrace) (seg : TraceSegment) :
    MatchingTrace :=
  { tr with segments := tr.segments ++ [seg] }

/-- MatchingTrace::removeLastSegment from trace.cpp. -/
def MatchingTrace.removeLastSegment (tr : MatchingTrace) : MatchingTrace :=
  { tr with segments := tr.segments.dropLast }

/-- MatchingTrace::currentImpedance from trace.cpp: load impedance when the
chain is empty, else the end point of the last segment. -/
def MatchingTrace.currentImpedance (tr : MatchingTrace) : ℂ :=
  match tr.segments.getLast? with
  | Option.none => tr.loadZ
  | Option.some s => s.endPoint.impedance

/-- MatchingTrace::generateConstantRArc from trace.cpp: numPoints samples of
constant resistance, the reactance linearly interpolated from the start value
by deltaX. -/
def generateConstantRArc (z0 freq : ℝ) (startZ : ℂ) (deltaX : ℝ)
    (numPoints : ℕ) : List TracePoint :=
  (List.range numPoints).map fun (i : ℕ) =>
    let t : ℝ := (i : ℝ) / ((numPoints : ℝ) - 1)
    let x := startZ.im + t * deltaX
    let z : ℂ := ⟨startZ.re, x⟩
    ⟨impedanceToGamma z z0, z, freq⟩

/-- MatchingTrace::generateConstantXArc from trace.cpp: constant reactance,
the resistance linearly interpolated and floor-clamped at 0.001. -/
def generateConstantXArc (z0 freq : ℝ) (startZ : ℂ) (deltaR : ℝ)
    (numPoints : ℕ) : List TracePoint :=
  (List.range numPoints).map fun (i : ℕ) =>
    let t : ℝ := (i : ℝ) / ((numPoints : ℝ) - 1)
    let r0 := startZ.re + t * deltaR
    let r := if r0 < 0.001 then 0.001 else r0
    let z : ℂ := ⟨r, startZ.im⟩
    ⟨impedanceToGamma z z0, z, freq⟩

/-- MatchingTrace::generateConstantGArc from trace.cpp: constant conductance
in the admittance plane, the susceptance linearly interpolated by deltaB. -/
def generateConstantGArc (z0 freq : ℝ) (startY : ℂ) (deltaB : ℝ)
    (numPoints : ℕ) : List TracePoint :=
  (List.range numPoints).map fun (i : ℕ) =>
    let t : ℝ := (i : ℝ) / ((numPoints : ℝ) - 1)
    let b := startY.im + t * deltaB
    let y : ℂ := ⟨startY.re, b⟩
    let z := (1 : ℂ) / y
    ⟨impedanceToGamma z z0, z, freq⟩

/-- MatchingTrace::generateConstantBArc from trace.cpp: constant susceptance,
the conductance linearly interpolated and floor-clamped at 0.001. -/
def generateConstantBArc (z0 freq : ℝ) (startY : ℂ) (deltaG : ℝ)
    (numPoints : ℕ) : List TracePoint :=
  (List.range numPoints).map fun (i : ℕ) =>
    let t : ℝ := (i : ℝ) / ((numPoints : ℝ) - 1)
    let g0 := startY.re + t * deltaG
    let g := if g0 < 0.001 then 0.001 else g0
    let y : ℂ := ⟨g, startY.im⟩
    let z := (1 : ℂ) / y
    ⟨impedanceToGamma z z0, z, freq⟩

/-- The per-component arc regeneration shared verbatim by
MatchingTrace::calculateSeriesElement, MatchingTrace::calculateShuntElement
and both switch blocks of MatchingTrace::updateSegmentValue: a series L or C
yields a constant-R arc over the reactance delta, a series R a constant-X
arc, a shunt C or L a constant-G arc over the susceptance delta, a shunt R a
constant-B arc; any other component kind leaves the points unchanged (the
default case of the switches). -/
def recomputePoints (z0 freq : ℝ) (conn : ConnectionType)
    (ctype : ComponentType) (value : ℝ) (startZ : ℂ)
    (oldPoints : List TracePoint) : List TracePoint :=
  match conn, ctype with
  | ConnectionType.Series, ComponentType.Inductor =>
      generateConstantRArc z0 freq startZ (2 * cPI * freq * value) 50
  | ConnectionType.Series, ComponentType.Capacitor =>
      generateConstantRArc z0 freq startZ
        (if 1e-18 < value then -1 / (2 * cPI * freq * value) else 0) 50
  | ConnectionType.Series, ComponentType.Resistor =>
      generateConstantXArc z0 freq startZ value 50
  | ConnectionType.Shunt, ComponentType.Capacitor =>
      generateConstantGArc z0 freq (1 / startZ) (2 * cPI * freq * value) 50
  | ConnectionType.Shunt, ComponentType.Inductor =>
      generateConstantGArc z0 freq (1 / startZ)
        (if 1e-18 < value then -1 / (2 * cPI * freq * value) else 0) 50
  | ConnectionType.Shunt, ComponentType.Resistor =>
      generateConstantBArc z0 freq (1 / startZ) (1 / value) 50
  | _, _ => oldPoints

/-- The TraceType tag assigned by MatchingTrace::calculateSeriesElement and
MatchingTrace::calculateShuntElement per component kind (Custom is the
untouched default-constructed tag). -/
def arcTypeFor (conn : ConnectionType) (ctype : ComponentType) : TraceType :=
  match conn, ctype with
  | ConnectionType.Series, ComponentType.Inductor => TraceType.ConstantR
  | ConnectionType.Series, ComponentType.Capacitor => TraceType.ConstantR
  | ConnectionType.Series, ComponentType.Resistor => TraceType.ConstantX
  | ConnectionType.Shunt, ComponentType.Capacitor => TraceType.ConstantG
  | ConnectionType.Shunt, ComponentType.Inductor => TraceType.ConstantG
  | ConnectionType.Shunt, ComponentType.Resistor => TraceType.ConstantB
  | _, _ => TraceType.Custom

/-- MatchingTrace::calculateSeriesElement from trace.cpp. -/
def MatchingTrace.calculateSeriesElement (tr : MatchingTrace)
    (ctype : ComponentType) (value : ℝ) : TraceSegment :=
  let startZ := tr.currentImpedance
  { points := recomputePoints tr.z0 tr.frequency ConnectionType.Series ctype
      value startZ []
    type := arcTypeFor ConnectionType.Series ctype
    componentType := ctype
    connectionType := ConnectionType.Series
    componentValue := value }

/-- MatchingTrace::calculateShuntElement from trace.cpp. -/
def MatchingTrace.calculateShuntElement (tr : MatchingTrace)
    (ctype : ComponentType) (value : ℝ) : TraceSegment :=
  let startZ := tr.currentImpedance
  { points := recomputePoints tr.z0 tr.frequency ConnectionType.Shunt ctype
      value startZ []
    type := arcTypeFor ConnectionType.Shunt ctype
    componentType := ctype
    connectionType := ConnectionType.Shunt
    componentValue := value }

/-- The downstream walk of MatchingTrace::updateSegmentValue: each segment in
turn has its points regenerated from the end point of its recomputed
predecessor. -/
def recomputeSeq (z0 freq : ℝ) (z : ℂ) :
    List TraceSegment → List TraceSegment
  | [] => []
  | s :: rest =>
      let newPts :=
        recomputePoints z0 freq s.connectionType s.componentType
          s.componentValue z s.points
      let s2 : TraceSegment := { s with points := newPts }
      s2 :: recomputeSeq z0 freq s2.endPoint.impedance rest

/-- MatchingTrace::updateSegmentValue from trace.cpp: no-op when the index is
out of range; otherwise store the new value into segment index, regenerate
its points from its start impedance (the load for index 0, else the end of
segment index-1), then regenerate every later segment from its predecessor's
new end point. -/
def MatchingTrace.updateSegmentValue (tr : MatchingTrace) (index : ℤ)
    (newValue : ℝ) : MatchingTrace :=
  if index < 0 ∨ (tr.numSegments : ℤ) ≤ index then tr
  else
    let i := index.toNat
    let startZ :=
      if i = 0 then tr.loadZ
      else ((tr.segments.get? (i - 1)).getD TraceSegment.mkDefault).endPoint.impedance
    match tr.segments.drop i with
    | [] => tr
    | s :: suffix =>
        let newSegs :=
          tr.segments.take i ++
            recomputeSeq tr.z0 tr.frequency startZ
              ({ s with componentValue := newValue } :: suffix)
        { tr with segments := newSegs }

/-- The add-series-element edit of the spec edit API, realized in the source
(mainwindow.cpp) as addSegment(calculateSeriesElement(type, value)). -/
def MatchingTrace.addSeriesElement (tr : MatchingTrace)
    (ctype : ComponentType) (value : ℝ) : MatchingTrace :=
  tr.addSegment (tr.calculateSeriesElement ctype value)

/-- The add-shunt-element edit of the spec edit API, realized in the source
(mainwindow.cpp) as addSegment(calculateShuntElement(type, value)). -/
def MatchingTrace.addShuntElement (tr : MatchingTrace)
    (ctype : ComponentType) (value : ℝ) : MatchingTrace :=
  tr.addSegment (tr.calculateShuntElement ctype value)

/-- Chain coherence from the spec data model: the first segment starts at z,
and every following segment starts at the impedance where its predecessor
ends. -/
def chainFrom (z : ℂ) : List TraceSegment → Prop
  | [] => True
  | s :: rest => s.startPoint.impedance = z ∧ chainFrom s.endPoint.impedance rest

/-- The spec trace invariant: segment 0 starts at the load impedance and each
segment i > 0 starts at the end impedance of segment i-1. -/
def MatchingTrace.chainInvariant (tr : MatchingTrace) : Prop :=
  chainFrom tr.loadZ tr.segments

/-- The impedance at the end of a segment chain started at z: z itself for an
empty chain, else the end-point impedance of the last segment. -/
def chainEnd (z : ℂ) (l : List TraceSegment) : ℂ :=
  match l.getLast? with
  | Option.none => z
  | Option.some s => s.endPoint.impedance

/-- One edit of the trace edit API: a connection mode, a component kind and a
component value. -/
structure ElementOp where
  connection : ConnectionType
  ctype : ComponentType
  value : ℝ

/-- Apply one edit to a trace through the source edit API. -/
def applyElementOp (tr : MatchingTrace) (op : ElementOp) : MatchingTrace :=
  match op.connection with
  | ConnectionType.Series => tr.addSeriesElement op.ctype op.value
  | ConnectionType.Shunt => tr.addShuntElement op.ctype op.value

/-- A trace built by a sequence of add-series/add-shunt edits starting from
an empty chain. -/
def buildTrace (zs zl : ℂ) (z0 freq : ℝ) (ops : List ElementOp) :
    MatchingTrace :=
  ops.foldl applyElementOp ⟨zs, zl, z0, freq, []⟩

/-- A segment whose component is an inductor or a capacitor (the arcs that
involve no resistance/conductance floor clamp). -/
def TraceSegment.reactiveLC (s : TraceSegment) : Prop :=
  s.componentType = ComponentType.Inductor ∨
    s.componentType = ComponentType.Capacitor

/-- Modelled from the spec (testable properties): forward evaluation of one
synthesized matching element at frequency freq, a series inductor adding its
realized reactance to the impedance and a shunt capacitor adding its realized
susceptance to the admittance; other kinds are not needed by the claims and
act as identity. -/
def applyElementZ (freq : ℝ) (z : ℂ) (e : MatchingElement) : ℂ :=
  match e.connection, e.type with
  | ConnectionType.Series, ComponentType.Inductor =>
      z + I * ((inductorReactance e.value freq : ℝ) : ℂ)
  | ConnectionType.Shunt, ComponentType.Capacitor =>
      1 / (1 / z + I * ((capacitorSusceptance e.value freq : ℝ) : ℂ))
  | _, _ => z

/-- Modelled from the spec (testable properties): forward evaluation of a
synthesized element chain starting from the load impedance; the element list
is ordered source side first, so the list is folded from the right. -/
def evalChainFromLoad (freq : ℝ) (elems : List MatchingElement) (zLoad : ℂ) :
    ℂ :=
  elems.foldr (fun e z => applyElementZ freq z e) zLoad

/-! Helper lemmas. -/

theorem cPI_pos : 0 < cPI := by norm_num [cPI]

theorem head?_map_range {α : Type} (f : ℕ → α) (n : ℕ) (h : n ≠ 0) :
    ((List.range n).map f).head? = Option.some (f 0) := by
  obtain ⟨m, rfl⟩ := Nat.exists_eq_succ_of_ne_zero h
  rw [List.range_succ_eq_map]
  simp

/-! Claim C10: out-of-range chain edits. -/

/-- C10: for every MatchingTrace and out-of-range index (negative or at least
numSegments), updateSegmentValue is a no-op returning the trace unchanged,
and segment returns the sentinel empty segment; neither raises. -/
theorem c10_out_of_range_noop (tr : MatchingTrace) (i : ℤ) (v : ℝ)
    (h : i < 0 ∨ (tr.numSegments : ℤ) ≤ i) :
    tr.updateSegmentValue i v = tr ∧ tr.segment i = TraceSegment.mkDefault := by
  constructor
  · unfold MatchingTrace.updateSegmentValue
    rw [if_pos h]
  · unfold MatchingTrace.segment
    rw [if_pos h]

/-- Witness for C10 at the empty default trace and index 3. -/
theorem c10_out_of_range_noop_witness :
    ((3 : ℤ) < 0 ∨
      (((MatchingTrace.mk 50 50 50 1e9 []).numSegments : ℤ) ≤ 3)) ∧
    (MatchingTrace.mk 50 50 50 1e9 []).updateSegmentValue 3 1 =
      MatchingTrace.mk 50 50 50 1e9 [] ∧
    (MatchingTrace.mk 50 50 50 1e9 []).segment 3 = TraceSegment.mkDefault := by
  refine ⟨Or.inr ?_, c10_out_of_range_noop _ 3 1 (Or.inr ?_)⟩ <;>
    norm_num [MatchingTrace.numSegments]

/-! Claim C9: composition of calculateAll. -/

/-- C9 (amended): calculateAll concatenates exactly the L-section, Pi-network
(default target Q 2.0) and T-network (default target Q 2.0) candidate lists,
in that order; the single-stub and quarter-wave solvers are not included. -/
theorem c9_calculateAll_concatenation (mc : MatchingCalculator) :
    calculateAll mc =
      calculateLSection mc ++ calculatePiNetwork mc 2 ++
        calculateTNetwork mc 2 := rfl

/-- Counterexample for C9: at source 50, load 100, frequency 1e9, z0 50, the
single-stub solver returns four candidates and the quarter-wave solver one,
yet calculateAll returns only the four L/Pi/T candidates: it is not the
concatenation of all five topology solvers. -/
theorem c9_counterexample :
    calculateAll ⟨50, 100, 1e9, 50⟩ ≠
      calculateLSection ⟨50, 100, 1e9, 50⟩ ++
        calculatePiNetwork ⟨50, 100, 1e9, 50⟩ 2 ++
        calculateTNetwork ⟨50, 100, 1e9, 50⟩ 2 ++
        calculateSingleStub ⟨50, 100, 1e9, 50⟩ ++
        calculateQuarterWave ⟨50, 100, 1e9, 50⟩ := by
  have hyl : stubYL ⟨50, 100, 1e9, 50⟩ = (((1 : ℝ) / 2 : ℝ) : ℂ) := by
    unfold stubYL
    push_cast
    norm_num
  have hLS : (calculateLSection ⟨50, 100, 1e9, 50⟩).length = 2 := by
    unfold calculateLSection
    norm_num
  have hPi : (calculatePiNetwork ⟨50, 100, 1e9, 50⟩ 2).length = 1 := by
    unfold calculatePiNetwork
    norm_num
  have hT : (calculateTNetwork ⟨50, 100, 1e9, 50⟩ 2).length = 1 := by
    unfold calculateTNetwork
    norm_num
  have hSS : (calculateSingleStub ⟨50, 100, 1e9, 50⟩).length = 4 := by
    have habs : |(1 : ℝ) / 2 - 1| = 1 / 2 := by
      rw [abs_sub_comm, abs_of_pos] <;> norm_num
    unfold calculateSingleStub
    rw [hyl]
    simp only [Complex.ofReal_re, Complex.ofReal_im, habs]
    norm_num [stubPair]
  have hQW : (calculateQuarterWave ⟨50, 100, 1e9, 50⟩).length = 1 := by
    unfold calculateQuarterWave
    norm_num
  intro h
  have hlen := congrArg List.length h
  rw [calculateAll] at hlen
  simp only [List.length_append, hLS, hPi, hT, hSS, hQW] at hlen
  norm_num at hlen

/-! Claim C2: gamma/impedance round trip and the sentinel branch. -/

/-- C2: for every reference impedance Z0 greater than 0 and impedance Z with
nonnegative real part, away from the sentinel boundary,
gammaToImpedance(impedanceToGamma(Z, Z0), Z0) recovers Z exactly (the real
embedding of the floating tolerance); and when the magnitude of 1 - Gamma is
below 1e-12, gammaToImpedance returns the sentinel impedance 1e12 + j0. -/
theorem c2_gamma_impedance_round_trip :
    (∀ (z0 : ℝ) (z : ℂ), 0 < z0 → 0 ≤ z.re →
      ¬ Complex.abs (1 - impedanceToGamma z z0) < 1e-12 →
      gammaToImpedance (impedanceToGamma z z0) z0 = z) ∧
    (∀ (z0 : ℝ) (gamma : ℂ), Complex.abs (1 - gamma) < 1e-12 →
      gammaToImpedance gamma z0 = ⟨1e12, 0⟩) := by
  constructor
  · intro z0 z hz0 hre hfar
    have hz0c : (z0 : ℂ) ≠ 0 := by
      simpa using ne_of_gt hz0
    have hsum : z + (z0 : ℂ) ≠ 0 := by
      intro h
      have : (z + (z0 : ℂ)).re = 0 := by rw [h]; simp
      simp only [Complex.add_re, Complex.ofReal_re] at this
      nlinarith
    have hne : (1 : ℂ) - impedanceToGamma z z0 ≠ 0 := by
      intro h
      apply hfar
      rw [h]
      simpa using (by norm_num : (0 : ℝ) < 1e-12)
    rw [gammaToImpedance, if_neg hfar]
    rw [impedanceToGamma] at hne ⊢
    rw [div_eq_iff hne]
    field_simp
    ring
  · intro z0 gamma h
    rw [gammaToImpedance, if_pos h]

/-- Witness for C2 at Z0 = 50, Z = 100 (round trip) and gamma = 1
(sentinel). -/
theorem c2_witness :
    gammaToImpedance (impedanceToGamma 100 50) 50 = 100 ∧
      gammaToImpedance 1 50 = ⟨1e12, 0⟩ := by
  constructor
  · apply c2_gamma_impedance_round_trip.1 50 100 (by norm_num) (by simp)
    have hg : impedanceToGamma 100 50 = ((1 / 3 : ℝ) : ℂ) := by
      rw [impedanceToGamma]
      push_cast
      rw [div_eq_iff (by norm_num : (100 : ℂ) + 50 ≠ 0)]
      norm_num
    rw [hg]
    have h23 : (1 : ℂ) - ((1 / 3 : ℝ) : ℂ) = (((2 : ℝ) / 3 : ℝ) : ℂ) := by
      push_cast
      norm_num
    rw [h23, Complex.abs_ofReal]
    rw [abs_of_pos (by norm_num : (0 : ℝ) < 2 / 3)]
    norm_num
  · apply c2_gamma_impedance_round_trip.2
    norm_num

/-! Claim C7: series component classification. -/

/-- Counterexample for C7: at frequency 1e-13 (which is greater than 0 but
below the code guard 1e-12) and reactance delta 5, calculateSeriesComponent
returns an inductor of value 0, not the claimed value deltaX/(2 pi f). -/
theorem c7_counterexample :
    calculateSeriesComponent 0 ⟨0, 5⟩ 1e-13 =
      ⟨ComponentType.Inductor, 0, 1e-13⟩ ∧
      (0 : ℝ) ≠ 5 / (2 * cPI * 1e-13) := by
  constructor
  · rw [calculateSeriesComponent]
    norm_num [calculateInductance]
  · have h : 0 < 2 * cPI * 1e-13 := by norm_num [cPI]
    intro habs
    have : (5 : ℝ) / (2 * cPI * 1e-13) > 0 := by positivity
    rw [← habs] at this
    exact lt_irrefl 0 this

/-- C7 (amended): for every pair of impedances and every frequency f at least
1e-12 (the code guard; the claim said every f greater than 0),
calculateSeriesComponent computes deltaX = Im(Z_target) - Im(Z_current) and
returns a None-typed component when the magnitude of deltaX is below 1e-12
(in particular at Z_current = Z_target for every frequency), an inductor of
value deltaX/(2 pi f) when deltaX is positive, and a capacitor of value
-1/(2 pi f deltaX) when deltaX is negative. -/
theorem c7_series_component_classification (zc zt : ℂ) (f : ℝ) :
    (|zt.im - zc.im| < 1e-12 →
      calculateSeriesComponent zc zt f = ComponentValue.mkDefault) ∧
    (calculateSeriesComponent zc zc f = ComponentValue.mkDefault) ∧
    (1e-12 ≤ f → 1e-12 ≤ |zt.im - zc.im| →
      (0 < zt.im - zc.im →
        calculateSeriesComponent zc zt f =
          ⟨ComponentType.Inductor, (zt.im - zc.im) / (2 * cPI * f), f⟩) ∧
      (zt.im - zc.im < 0 →
        calculateSeriesComponent zc zt f =
          ⟨ComponentType.Capacitor, -1 / (2 * cPI * f * (zt.im - zc.im)), f⟩)) := by
  refine ⟨?_, ?_, ?_⟩
  · intro h
    rw [calculateSeriesComponent]
    simp only [h, if_pos]
  · rw [calculateSeriesComponent]
    norm_num
  · intro hf hd
    constructor
    · intro hpos
      rw [calculateSeriesComponent]
      rw [if_neg (by simpa using not_lt.mpr hd), if_pos hpos]
      rw [calculateInductance, if_neg (not_lt.mpr hf)]
    · intro hneg
      rw [calculateSeriesComponent]
      rw [if_neg (by simpa using not_lt.mpr hd), if_neg (by simpa using le_of_lt hneg)]
      rw [calculateCapacitance,
        if_neg (by push_neg; exact ⟨not_lt.mp (by simpa using not_lt.mpr hf), hd⟩)]

/-- Witness for C7 at Z_current = 0, Z_target = j5, f = 1. -/
theorem c7_witness :
    calculateSeriesComponent 0 ⟨0, 5⟩ 1 =
      ⟨ComponentType.Inductor,
        ((⟨0, 5⟩ : ℂ).im - (0 : ℂ).im) / (2 * cPI * 1), 1⟩ := by
  apply ((c7_series_component_classification 0 ⟨0, 5⟩ 1).2.2 (by norm_num)
    (by simp; norm_num)).1
  simp

/-! Claim C8: behaviour at non-positive frequency. -/

/-- Counterexample for C8: at frequency 0 and reactance delta 5,
calculateSeriesComponent returns an Inductor-typed component (of value 0),
not a None-typed one as claimed. -/
theorem c8_counterexample :
    calculateSeriesComponent 0 ⟨0, 5⟩ 0 = ⟨ComponentType.Inductor, 0, 0⟩ ∧
      ComponentType.Inductor ≠ ComponentType.None := by
  constructor
  · rw [calculateSeriesComponent]
    norm_num [calculateInductance]
  · intro h
    cases h

/-- C8 (amended): for every frequency f at most 0 and non-negligible delta,
calculateSeriesComponent returns a zero-magnitude component, but typed
Inductor (positive delta) or Capacitor (negative delta) rather than None;
calculateShuntComponent applies no frequency guard at all and returns the
Capacitor value deltaB/(2 pi)/f for positive delta and the Inductor value
-1/(2 pi f deltaB) for negative delta (values that are non-finite or
negative in the C++ floating semantics when f is at most 0). -/
theorem c8_nonpositive_frequency (zc zt yc yt : ℂ) (f : ℝ) (hf : f ≤ 0) :
    (1e-12 ≤ |zt.im - zc.im| →
      (calculateSeriesComponent zc zt f).value = 0 ∧
      (0 < zt.im - zc.im →
        (calculateSeriesComponent zc zt f).type = ComponentType.Inductor) ∧
      (zt.im - zc.im < 0 →
        (calculateSeriesComponent zc zt f).type = ComponentType.Capacitor)) ∧
    (1e-12 ≤ yt.im - yc.im →
      calculateShuntComponent yc yt f =
        ⟨ComponentType.Capacitor, (yt.im - yc.im) / (2 * cPI) / f, f⟩) ∧
    (yt.im - yc.im ≤ -1e-12 →
      calculateShuntComponent yc yt f =
        ⟨ComponentType.Inductor, -1 / (2 * cPI * f * (yt.im - yc.im)), f⟩) := by
  have hflt : f < 1e-12 := lt_of_le_of_lt hf (by norm_num)
  refine ⟨?_, ?_, ?_⟩
  · intro hd
    have hnd : ¬ |zt.im - zc.im| < 1e-12 := not_lt.mpr hd
    rcases lt_or_le 0 (zt.im - zc.im) with hpos | hnonpos
    · rw [calculateSeriesComponent]
      simp only [hnd, if_false, hpos, if_true, if_pos]
      rw [calculateInductance, if_pos hflt]
      exact ⟨rfl, fun _ => rfl, fun h => absurd h (not_lt.mpr (le_of_lt hpos))⟩
    · have hneg : zt.im - zc.im < 0 := by
        rcases lt_or_eq_of_le hnonpos with h | h
        · exact h
        · exfalso
          rw [h] at hd
          norm_num at hd
      rw [calculateSeriesComponent]
      simp only [hnd, if_false, not_lt.mpr hnonpos, if_pos]
      rw [calculateCapacitance, if_pos (Or.inl hflt)]
      exact ⟨rfl, fun h => h.elim, fun _ => rfl⟩
  · intro hd
    have hpos : 0 < yt.im - yc.im := lt_of_lt_of_le (by norm_num) hd
    have hnd : ¬ |yt.im - yc.im| < 1e-12 := by
      rw [abs_of_pos hpos]
      exact not_lt.mpr hd
    rw [calculateShuntComponent]
    simp only [hnd, if_false, hpos, if_true, if_pos]
  · intro hd
    have hneg : yt.im - yc.im < 0 := lt_of_le_of_lt hd (by norm_num)
    have hnd : ¬ |yt.im - yc.im| < 1e-12 := by
      rw [abs_of_neg hneg]
      push_neg
      linarith
    rw [calculateShuntComponent]
    simp only [hnd, if_false, not_lt.mpr (le_of_lt hneg), if_pos]

/-- Witness for C8 at f = 0, series delta 5 and shunt delta -5. -/
theorem c8_witness :
    (calculateSeriesComponent 0 ⟨0, 5⟩ 0).value = 0 ∧
      (calculateSeriesComponent 0 ⟨0, 5⟩ 0).type = ComponentType.Inductor ∧
      calculateShuntComponent 0 ⟨0, -5⟩ 0 =
        ⟨ComponentType.Inductor,
          -1 / (2 * cPI * 0 * ((⟨0, -5⟩ : ℂ).im - (0 : ℂ).im)), 0⟩ := by
  have h := c8_nonpositive_frequency 0 ⟨0, 5⟩ 0 ⟨0, -5⟩ 0 le_rfl
  refine ⟨(h.1 ?_).1, (h.1 ?_).2.1 ?_, h.2.2 ?_⟩ <;> simp <;> norm_num

/-! Claim C5: empty solution lists for non-physical resistances. -/

/-- Counterexample for C5: with source impedance -50 (so Re(Zs) is not
positive) and load 100 + j50, calculateQuarterWave still emits a solution
through its reactance-cancelling branch instead of returning the claimed
empty list. -/
theorem c5_counterexample :
    ((⟨-50, ⟨100, 50⟩, 1e9, 50⟩ : MatchingCalculator).sourceZ.re ≤ 0) ∧
      calculateQuarterWave ⟨-50, ⟨100, 50⟩, 1e9, 50⟩ ≠ [] := by
  constructor
  · norm_num
  · rw [calculateQuarterWave]
    norm_num

/-- C5 (amended): for every source and load with Re(Zs) at most 0 or Re(Zl)
at most 0, calculateLSection, calculatePiNetwork and calculateTNetwork
return the empty solution list; calculateQuarterWave returns the empty list
whenever Re(Zl) is at most 0, but when Re(Zl) is positive it emits a
solution regardless of the sign of Re(Zs). -/
theorem c5_nonphysical_empty (mc : MatchingCalculator) (q : ℝ) :
    ((mc.sourceZ.re ≤ 0 ∨ mc.loadZ.re ≤ 0) →
      calculateLSection mc = [] ∧ calculatePiNetwork mc q = [] ∧
        calculateTNetwork mc q = []) ∧
    (mc.loadZ.re ≤ 0 → calculateQuarterWave mc = []) := by
  constructor
  · intro h
    refine ⟨?_, ?_, ?_⟩
    · rw [calculateLSection]
      simp only [h, if_pos]
    · rw [calculatePiNetwork]
      simp only [h, if_pos]
    · rw [calculateTNetwork]
      simp only [h, if_pos]
  · intro h
    rw [calculateQuarterWave]
    rw [if_neg ?_, if_neg (not_lt.mpr h)]
    intro hc
    exact absurd hc.2.1 (not_lt.mpr h)

/-- Witness for C5 at source -50, load -100 (both non-physical). -/
theorem c5_witness :
    calculateLSection ⟨-50, -100, 1e9, 50⟩ = [] ∧
      calculatePiNetwork ⟨-50, -100, 1e9, 50⟩ 2 = [] ∧
      calculateTNetwork ⟨-50, -100, 1e9, 50⟩ 2 = [] ∧
      calculateQuarterWave ⟨-50, -100, 1e9, 50⟩ = [] := by
  have h := c5_nonphysical_empty ⟨-50, -100, 1e9, 50⟩ 2
  have hs : ((⟨-50, -100, 1e9, 50⟩ : MatchingCalculator)).sourceZ.re ≤ 0 := by
    norm_num
  have hl : ((⟨-50, -100, 1e9, 50⟩ : MatchingCalculator)).loadZ.re ≤ 0 := by
    norm_num
  obtain ⟨h1, h2, h3⟩ := h.1 (Or.inl hs)
  exact ⟨h1, h2, h3, h.2 hl⟩

/-! Claim C3: concrete L-section scenario Zs = 50, Zl = 100. -/

/-- C3: for source 50 + j0, load 100 + j0 and any frequency f greater than 0,
calculateLSection takes the Re(Zs) less than Re(Zl) branch with Q =
sqrt(100/50 - 1) = 1: the first returned solution is series-then-shunt, its
series element an inductor realizing reactance +50 ohm and its shunt element
a capacitor realizing susceptance 1/100 siemens (the second solution is the
opposite-sign companion). -/
theorem c3_lsection_concrete (f z0 : ℝ) (hf : 0 < f) :
    calculateLSection ⟨50, 100, f, z0⟩ =
      [{ topology := MatchingTopology.LSection_Reversed
         elements :=
           [⟨ComponentType.Inductor, ConnectionType.Series,
              reactanceToInductance 50 f⟩,
            ⟨ComponentType.Capacitor, ConnectionType.Shunt,
              susceptanceToCapacitance (1 / 100) f⟩]
         frequency := f
         sourceZ := 50
         loadZ := 100
         valid := true },
       { topology := MatchingTopology.LSection_Reversed
         elements :=
           [⟨ComponentType.Capacitor, ConnectionType.Series,
              reactanceToCapacitance (-50) f⟩,
            ⟨ComponentType.Inductor, ConnectionType.Shunt,
              susceptanceToInductance (-(1 / 100)) f⟩]
         frequency := f
         sourceZ := 50
         loadZ := 100
         valid := true }] ∧
    inductorReactance (reactanceToInductance 50 f) f = 50 ∧
    capacitorSusceptance (susceptanceToCapacitance (1 / 100) f) f = 1 / 100 := by
  have hden : 2 * cPI * f ≠ 0 := by
    have := cPI_pos
    positivity
  refine ⟨?_, ?_, ?_⟩
  · rw [calculateLSection]
    simp only [Complex.re_ofNat, Complex.im_ofNat]
    rw [show Real.sqrt ((100 : ℝ) / 50 - 1) = 1 by
      rw [show (100 : ℝ) / 50 - 1 = 1 by norm_num, Real.sqrt_one]]
    rw [if_neg (by norm_num), if_neg (by norm_num),
      if_pos (by norm_num : (50 : ℝ) < 100)]
    rw [createLSectionSolution, createLSectionSolution]
    norm_num
  · rw [reactanceToInductance, if_neg (not_le.mpr hf), inductorReactance]
    field_simp
  · rw [susceptanceToCapacitance, if_neg (not_le.mpr hf), capacitorSusceptance]
    field_simp
    ring

/-- Witness for C3 at f = 1e9, z0 = 50. -/
theorem c3_witness :
    (0 : ℝ) < 1e9 ∧
      (calculateLSection ⟨50, 100, 1e9, 50⟩).length = 2 ∧
      inductorReactance (reactanceToInductance 50 1e9) 1e9 = 50 ∧
      capacitorSusceptance (susceptanceToCapacitance (1 / 100) 1e9) 1e9 =
        1 / 100 := by
  have h := c3_lsection_concrete 1e9 50 (by norm_num)
  refine ⟨by norm_num, ?_, h.2.1, h.2.2⟩
  rw [h.1]
  rfl

/-! Claim C6: single-stub tan roots versus the documented equation. -/

/-- C6 (code bug evidence): at load 100 + j0 with z0 = 50 the embedded
calculateSingleStub works on normalized admittance g = 1/2, b = 0 and
computes the tan(beta d) roots t1 = -1 and t2 = 1 from its expression
(b plus-minus sqrt(g A / g)) / (g - 1), while the equation stated by the
claim and by the comment in the source,
tan(beta d) = (b plus-minus sqrt(g ((1-g)^2 + b^2))) / (g - 1 - b^2 / g),
has the two roots minus-plus sqrt(1/2), neither of which equals t1 or t2. -/
theorem c6_stub_root_mismatch :
    (stubYL ⟨50, 100, 1e9, 50⟩).re = 1 / 2 ∧
    (stubYL ⟨50, 100, 1e9, 50⟩).im = 0 ∧
    stubT1 ⟨50, 100, 1e9, 50⟩ = -1 ∧
    stubT2 ⟨50, 100, 1e9, 50⟩ = 1 ∧
    (0 + Real.sqrt (1 / 2 * ((1 - 1 / 2) ^ 2 + 0 ^ 2))) /
        (1 / 2 - 1 - 0 ^ 2 / (1 / 2)) ≠ -1 ∧
    (0 + Real.sqrt (1 / 2 * ((1 - 1 / 2) ^ 2 + 0 ^ 2))) /
        (1 / 2 - 1 - 0 ^ 2 / (1 / 2)) ≠ 1 ∧
    (0 - Real.sqrt (1 / 2 * ((1 - 1 / 2) ^ 2 + 0 ^ 2))) /
        (1 / 2 - 1 - 0 ^ 2 / (1 / 2)) ≠ -1 ∧
    (0 - Real.sqrt (1 / 2 * ((1 - 1 / 2) ^ 2 + 0 ^ 2))) /
        (1 / 2 - 1 - 0 ^ 2 / (1 / 2)) ≠ 1 := by
  have hyl : stubYL ⟨50, 100, 1e9, 50⟩ = (((1 : ℝ) / 2 : ℝ) : ℂ) := by
    unfold stubYL
    push_cast
    norm_num
  have habs : ¬ |(1 : ℝ) / 2 - 1| < 1e-10 := by
    rw [abs_sub_comm, abs_of_pos (by norm_num : (0 : ℝ) < 1 - 1 / 2)]
    norm_num
  have hsarg : (1 : ℝ) / 2 * ((1 - 1 / 2) * (1 - 1 / 2) + 0 * 0) / (1 / 2)
      = 1 / 4 := by norm_num
  have hs14 : Real.sqrt (1 / 4) = 1 / 2 := by
    rw [show (1 : ℝ) / 4 = (1 / 2) ^ 2 by norm_num,
      Real.sqrt_sq (by norm_num : (0 : ℝ) ≤ 1 / 2)]
  have hsarg2 : (1 : ℝ) / 2 * ((1 - 1 / 2) ^ 2 + 0 ^ 2) = 1 / 8 := by
    norm_num
  have hs8 : Real.sqrt (1 / 8) ^ 2 = 1 / 8 :=
    Real.sq_sqrt (by norm_num : (0 : ℝ) ≤ 1 / 8)
  have hs8pos : 0 < Real.sqrt (1 / 8) :=
    Real.sqrt_pos.mpr (by norm_num)
  refine ⟨by rw [hyl]; simp, by rw [hyl]; simp, ?_, ?_, ?_, ?_, ?_, ?_⟩
  · unfold stubT1
    rw [hyl]
    simp only [Complex.ofReal_re, Complex.ofReal_im]
    rw [if_neg habs, hsarg, hs14]
    norm_num
  · unfold stubT2
    rw [hyl]
    simp only [Complex.ofReal_re, Complex.ofReal_im]
    rw [if_neg habs, hsarg, hs14]
    norm_num
  · rw [hsarg2]
    intro h
    rw [div_eq_iff (by norm_num : (1 : ℝ) / 2 - 1 - 0 ^ 2 / (1 / 2) ≠ 0)] at h
    nlinarith [hs8, hs8pos]
  · rw [hsarg2]
    intro h
    rw [div_eq_iff (by norm_num : (1 : ℝ) / 2 - 1 - 0 ^ 2 / (1 / 2) ≠ 0)] at h
    nlinarith [hs8, hs8pos]
  · rw [hsarg2]
    intro h
    rw [div_eq_iff (by norm_num : (1 : ℝ) / 2 - 1 - 0 ^ 2 / (1 / 2) ≠ 0)] at h
    nlinarith [hs8, hs8pos]
  · rw [hsarg2]
    intro h
    rw [div_eq_iff (by norm_num : (1 : ℝ) / 2 - 1 - 0 ^ 2 / (1 / 2) ≠ 0)] at h
    nlinarith [hs8, hs8pos]

/-! Claim C4: Pi-network synthesis. -/

theorem realize_reactance (x f : ℝ) (hf : 0 < f) :
    inductorReactance (reactanceToInductance x f) f = x := by
  rw [reactanceToInductance, if_neg (not_le.mpr hf), inductorReactance]
  have := cPI_pos
  field_simp

theorem realize_susceptance (b f : ℝ) (hf : 0 < f) :
    capacitorSusceptance (susceptanceToCapacitance b f) f = b := by
  rw [susceptanceToCapacitance, if_neg (not_le.mpr hf), capacitorSusceptance]
  have := cPI_pos
  field_simp

theorem piRVirt_pos (rs rl targetQ : ℝ) (hrs : 0 < rs) (hrl : 0 < rl) :
    0 < piRVirt rs rl targetQ := by
  rw [piRVirt]
  have h1 : 0 < 1 + targetQ * targetQ := by nlinarith [mul_self_nonneg targetQ]
  exact div_pos (lt_min hrs hrl) h1

theorem piRVirt_le_min (rs rl targetQ : ℝ) (hrs : 0 < rs) (hrl : 0 < rl) :
    piRVirt rs rl targetQ ≤ min rs rl := by
  rw [piRVirt]
  have h1 : 1 ≤ 1 + targetQ * targetQ := by nlinarith [mul_self_nonneg targetQ]
  exact div_le_self (le_of_lt (lt_min hrs hrl)) h1

theorem piQ1_sq (rs rl targetQ : ℝ) (hrs : 0 < rs) (hrl : 0 < rl) :
    piQ1 rs rl targetQ ^ 2 = rs / piRVirt rs rl targetQ - 1 := by
  rw [piQ1]
  apply Real.sq_sqrt
  rw [sub_nonneg, le_div_iff₀ (piRVirt_pos rs rl targetQ hrs hrl), one_mul]
  exact le_trans (piRVirt_le_min rs rl targetQ hrs hrl) (min_le_left rs rl)

theorem piQ2_sq (rs rl targetQ : ℝ) (hrs : 0 < rs) (hrl : 0 < rl) :
    piQ2 rs rl targetQ ^ 2 = rl / piRVirt rs rl targetQ - 1 := by
  rw [piQ2]
  apply Real.sq_sqrt
  rw [sub_nonneg, le_div_iff₀ (piRVirt_pos rs rl targetQ hrs hrl), one_mul]
  exact le_trans (piRVirt_le_min rs rl targetQ hrs hrl) (min_le_right rs rl)

/-- C4: for every Rs, Rl greater than 0, every target Q and every frequency f
greater than 0, calculatePiNetwork returns exactly one solution of three
elements in order shunt capacitor, series inductor, shunt capacitor, whose
values realize shunt susceptance b1 = q1/Rs, series reactance
x1 + x2 = q1 Rv + q2 Rv and shunt susceptance b2 = q2/Rl for
Rv = min(Rs,Rl)/(1+Q^2), q1 = sqrt(Rs/Rv - 1), q2 = sqrt(Rl/Rv - 1); and for
purely resistive source and load the three-element chain evaluated forward
from the load impedance reaches the source impedance exactly. -/
theorem c4_pi_network (rs rl targetQ f z0v : ℝ)
    (hrs : 0 < rs) (hrl : 0 < rl) (hf : 0 < f) :
    calculatePiNetwork ⟨(rs : ℂ), (rl : ℂ), f, z0v⟩ targetQ =
      [{ topology := MatchingTopology.PiNetwork
         elements :=
           [⟨ComponentType.Capacitor, ConnectionType.Shunt,
              susceptanceToCapacitance (piQ1 rs rl targetQ / rs) f⟩,
            ⟨ComponentType.Inductor, ConnectionType.Series,
              reactanceToInductance
                (piQ1 rs rl targetQ * piRVirt rs rl targetQ +
                  piQ2 rs rl targetQ * piRVirt rs rl targetQ) f⟩,
            ⟨ComponentType.Capacitor, ConnectionType.Shunt,
              susceptanceToCapacitance (piQ2 rs rl targetQ / rl) f⟩]
         frequency := f
         sourceZ := (rs : ℂ)
         loadZ := (rl : ℂ)
         valid := true }] ∧
    capacitorSusceptance
        (susceptanceToCapacitance (piQ1 rs rl targetQ / rs) f) f =
      piQ1 rs rl targetQ / rs ∧
    inductorReactance
        (reactanceToInductance
          (piQ1 rs rl targetQ * piRVirt rs rl targetQ +
            piQ2 rs rl targetQ * piRVirt rs rl targetQ) f) f =
      piQ1 rs rl targetQ * piRVirt rs rl targetQ +
        piQ2 rs rl targetQ * piRVirt rs rl targetQ ∧
    capacitorSusceptance
        (susceptanceToCapacitance (piQ2 rs rl targetQ / rl) f) f =
      piQ2 rs rl targetQ / rl ∧
    evalChainFromLoad f
        [⟨ComponentType.Capacitor, ConnectionType.Shunt,
           susceptanceToCapacitance (piQ1 rs rl targetQ / rs) f⟩,
         ⟨ComponentType.Inductor, ConnectionType.Series,
           reactanceToInductance
             (piQ1 rs rl targetQ * piRVirt rs rl targetQ +
               piQ2 rs rl targetQ * piRVirt rs rl targetQ) f⟩,
         ⟨ComponentType.Capacitor, ConnectionType.Shunt,
           susceptanceToCapacitance (piQ2 rs rl targetQ / rl) f⟩]
        (rl : ℂ) = (rs : ℂ) := by
  have hrv := piRVirt_pos rs rl targetQ hrs hrl
  have hq1 := piQ1_sq rs rl targetQ hrs hrl
  have hq2 := piQ2_sq rs rl targetQ hrs hrl
  have hrvne : ((piRVirt rs rl targetQ : ℝ) : ℂ) ≠ 0 :=
    Complex.ofReal_ne_zero.mpr (ne_of_gt hrv)
  have hrsne : ((rs : ℝ) : ℂ) ≠ 0 := Complex.ofReal_ne_zero.mpr (ne_of_gt hrs)
  have hrlne : ((rl : ℝ) : ℂ) ≠ 0 := Complex.ofReal_ne_zero.mpr (ne_of_gt hrl)
  have hrv1 : piRVirt rs rl targetQ * (1 + piQ2 rs rl targetQ ^ 2) = rl := by
    rw [hq2]
    field_simp
  have hrv2 : piRVirt rs rl targetQ * (1 + piQ1 rs rl targetQ ^ 2) = rs := by
    rw [hq1]
    field_simp
  have hIne1 : (1 : ℂ) + I * (piQ1 rs rl targetQ : ℝ) ≠ 0 := by
    intro h
    simpa using congrArg Complex.re h
  have hIne2 : (1 : ℂ) + I * (piQ2 rs rl targetQ : ℝ) ≠ 0 := by
    intro h
    simpa using congrArg Complex.re h
  refine ⟨?_, realize_susceptance _ f hf, realize_reactance _ f hf,
    realize_susceptance _ f hf, ?_⟩
  · rw [calculatePiNetwork]
    simp only [Complex.ofReal_re]
    rw [if_neg (by push_neg; exact ⟨hrs, hrl⟩)]
  · simp only [evalChainFromLoad, List.foldr, applyElementZ]
    rw [realize_susceptance _ f hf, realize_susceptance _ f hf,
      realize_reactance _ f hf]
    have hmul2 : ((1 : ℂ) - I * (piQ2 rs rl targetQ : ℝ)) *
        ((1 : ℂ) + I * (piQ2 rs rl targetQ : ℝ)) =
          ((1 + piQ2 rs rl targetQ ^ 2 : ℝ) : ℂ) := by
      push_cast
      ring_nf
      rw [Complex.I_sq]
      ring
    have hA : (1 : ℂ) / ((rl : ℝ) : ℂ) + I * ((piQ2 rs rl targetQ / rl : ℝ) : ℂ)
        = ((1 : ℂ) + I * (piQ2 rs rl targetQ : ℝ)) / ((rl : ℝ) : ℂ) := by
      push_cast
      field_simp
    have hB : (1 : ℂ) / ((1 : ℂ) / ((rl : ℝ) : ℂ) +
        I * ((piQ2 rs rl targetQ / rl : ℝ) : ℂ)) =
          ((piRVirt rs rl targetQ : ℝ) : ℂ) *
            ((1 : ℂ) - I * (piQ2 rs rl targetQ : ℝ)) := by
      rw [hA, one_div_div, div_eq_iff hIne2, mul_assoc, hmul2]
      rw [← Complex.ofReal_mul, hrv1]
    rw [hB]
    have hC : ((piRVirt rs rl targetQ : ℝ) : ℂ) *
        ((1 : ℂ) - I * (piQ2 rs rl targetQ : ℝ)) +
          I * ((piQ1 rs rl targetQ * piRVirt rs rl targetQ +
            piQ2 rs rl targetQ * piRVirt rs rl targetQ : ℝ) : ℂ) =
            ((piRVirt rs rl targetQ : ℝ) : ℂ) *
              ((1 : ℂ) + I * (piQ1 rs rl targetQ : ℝ)) := by
      push_cast
      ring
    rw [hC]
    have hmul1 : ((1 : ℂ) - I * (piQ1 rs rl targetQ : ℝ)) *
        ((1 : ℂ) + I * (piQ1 rs rl targetQ : ℝ)) =
          ((1 + piQ1 rs rl targetQ ^ 2 : ℝ) : ℂ) := by
      push_cast
      ring_nf
      rw [Complex.I_sq]
      ring
    have hE : ((piRVirt rs rl targetQ : ℝ) : ℂ) *
        ((1 : ℂ) + I * (piQ1 rs rl targetQ : ℝ)) *
          ((1 : ℂ) - I * (piQ1 rs rl targetQ : ℝ)) = ((rs : ℝ) : ℂ) := by
      rw [mul_assoc, mul_comm ((1 : ℂ) + I * (piQ1 rs rl targetQ : ℝ)) _,
        hmul1, ← Complex.ofReal_mul, hrv2]
    have h1q : (1 : ℂ) / (((piRVirt rs rl targetQ : ℝ) : ℂ) *
        ((1 : ℂ) + I * (piQ1 rs rl targetQ : ℝ))) =
          ((1 : ℂ) - I * (piQ1 rs rl targetQ : ℝ)) / ((rs : ℝ) : ℂ) := by
      rw [div_eq_div_iff (mul_ne_zero hrvne hIne1) hrsne, one_mul,
        mul_comm ((1 : ℂ) - I * (piQ1 rs rl targetQ : ℝ)) _]
      exact hE.symm
    have hD : (1 : ℂ) / (((piRVirt rs rl targetQ : ℝ) : ℂ) *
        ((1 : ℂ) + I * (piQ1 rs rl targetQ : ℝ))) +
          I * ((piQ1 rs rl targetQ / rs : ℝ) : ℂ) = 1 / ((rs : ℝ) : ℂ) := by
      rw [h1q]
      push_cast
      field_simp
    rw [hD, one_div_one_div]

/-- Witness for C4 at Rs = 50, Rl = 200, target Q = 2, f = 1e9. -/
theorem c4_witness :
    (calculatePiNetwork ⟨((50 : ℝ) : ℂ), ((200 : ℝ) : ℂ), 1e9, 50⟩ 2).length
        = 1 ∧
      evalChainFromLoad 1e9
        [⟨ComponentType.Capacitor, ConnectionType.Shunt,
           susceptanceToCapacitance (piQ1 50 200 2 / 50) 1e9⟩,
         ⟨ComponentType.Inductor, ConnectionType.Series,
           reactanceToInductance
             (piQ1 50 200 2 * piRVirt 50 200 2 +
               piQ2 50 200 2 * piRVirt 50 200 2) 1e9⟩,
         ⟨ComponentType.Capacitor, ConnectionType.Shunt,
           susceptanceToCapacitance (piQ2 50 200 2 / 200) 1e9⟩]
        ((200 : ℝ) : ℂ) = ((50 : ℝ) : ℂ) := by
  have h := c4_pi_network 50 200 2 1e9 50 (by norm_num) (by norm_num)
    (by norm_num)
  exact ⟨by rw [h.1]; rfl, h.2.2.2.2⟩

/-! Claim C1: the trace chain invariant. -/

theorem startPoint_recomputePoints (z0 f : ℝ) (conn : ConnectionType)
    (ct : ComponentType) (v : ℝ) (z : ℂ) (old : List TracePoint)
    (h : ct = ComponentType.Inductor ∨ ct = ComponentType.Capacitor) :
    ((recomputePoints z0 f conn ct v z old).head?.getD
      TracePoint.mkDefault).impedance = z := by
  have h50 : (50 : ℕ) ≠ 0 := by norm_num
  rcases h with h | h <;> subst h <;> cases conn <;>
    simp only [recomputePoints, generateConstantRArc, generateConstantGArc] <;>
    rw [head?_map_range _ 50 h50] <;>
    simp only [Option.getD_some, Nat.cast_zero, zero_div, zero_mul,
      add_zero] <;>
    first
      | exact Complex.ext rfl rfl
      | rw [show (⟨((1 : ℂ) / z).re, ((1 : ℂ) / z).im⟩ : ℂ) = (1 : ℂ) / z
            from Complex.ext rfl rfl, one_div_one_div]

theorem chainEnd_nil (z : ℂ) : chainEnd z [] = z := rfl

theorem chainEnd_cons (z : ℂ) (s : TraceSegment) (l : List TraceSegment) :
    chainEnd z (s :: l) = chainEnd s.endPoint.impedance l := by
  cases l with
  | nil => rfl
  | cons t rest =>
      rw [chainEnd, chainEnd, List.getLast?_cons_cons]
      cases hl : (t :: rest).getLast? with
      | none => simp at hl
      | some u => simp only [hl]

theorem chainFrom_append (z : ℂ) (l1 l2 : List TraceSegment) :
    chainFrom z (l1 ++ l2) ↔
      chainFrom z l1 ∧ chainFrom (chainEnd z l1) l2 := by
  induction l1 generalizing z with
  | nil =>
      simp [chainFrom, chainEnd_nil]
  | cons s rest ih =>
      rw [List.cons_append, chainFrom, chainFrom, ih, chainEnd_cons]
      tauto

theorem chainFrom_take (z : ℂ) (l : List TraceSegment) (h : chainFrom z l)
    (n : ℕ) : chainFrom z (l.take n) := by
  induction l generalizing z n with
  | nil => simpa using h
  | cons s rest ih =>
      cases n with
      | zero => exact trivial
      | succ m =>
          rw [List.take_succ_cons, chainFrom]
          exact ⟨h.1, ih s.endPoint.impedance h.2 m⟩

theorem chainEnd_take (l : List TraceSegment) (k : ℕ) (z : ℂ)
    (h : k < l.length) :
    chainEnd z (l.take (k + 1)) =
      ((l.get? k).getD TraceSegment.mkDefault).endPoint.impedance := by
  induction l generalizing k z with
  | nil => simp at h
  | cons s rest ih =>
      cases k with
      | zero =>
          rw [List.take_succ_cons, List.take_zero, List.get?_cons_zero]
          rfl
      | succ m =>
          rw [List.take_succ_cons, List.get?_cons_succ, chainEnd_cons]
          exact ih m _ (by simpa using h)

theorem recomputeSeq_chainFrom (z0 f : ℝ) (z : ℂ) (l : List TraceSegment)
    (h : ∀ s ∈ l, s.reactiveLC) : chainFrom z (recomputeSeq z0 f z l) := by
  induction l generalizing z with
  | nil => trivial
  | cons s rest ih =>
      simp only [recomputeSeq, chainFrom]
      constructor
      · exact startPoint_recomputePoints z0 f s.connectionType s.componentType
          s.componentValue z s.points (h s (List.mem_cons_self s rest))
      · exact ih _ (fun t ht => h t (List.mem_cons_of_mem s ht))

theorem recomputeSeq_length (z0 f : ℝ) (z : ℂ) (l : List TraceSegment) :
    (recomputeSeq z0 f z l).length = l.length := by
  induction l generalizing z with
  | nil => rfl
  | cons s rest ih =>
      simp only [recomputeSeq, List.length_cons, ih]

theorem currentImpedance_eq_chainEnd (tr : MatchingTrace) :
    tr.currentImpedance = chainEnd tr.loadZ tr.segments := rfl

theorem applyElementOp_preserves (tr : MatchingTrace) (op : ElementOp)
    (h1 : tr.chainInvariant) (h2 : ∀ s ∈ tr.segments, s.reactiveLC)
    (hop : op.ctype = ComponentType.Inductor ∨
      op.ctype = ComponentType.Capacitor) :
    (applyElementOp tr op).chainInvariant ∧
      (applyElementOp tr op).loadZ = tr.loadZ ∧
      (applyElementOp tr op).segments.length = tr.segments.length + 1 ∧
      ∀ s ∈ (applyElementOp tr op).segments, s.reactiveLC := by
  obtain ⟨conn, ct, v⟩ := op
  have hseg : ∀ (c : ConnectionType),
      (applyElementOp tr ⟨c, ct, v⟩).segments = tr.segments ++
        [⟨recomputePoints tr.z0 tr.frequency c ct v tr.currentImpedance [],
          arcTypeFor c ct, ct, c, v⟩] := by
    intro c
    cases c <;> rfl
  have hload : ∀ (c : ConnectionType),
      (applyElementOp tr ⟨c, ct, v⟩).loadZ = tr.loadZ := by
    intro c
    cases c <;> rfl
  refine ⟨?_, hload conn, ?_, ?_⟩
  · show chainFrom (applyElementOp tr ⟨conn, ct, v⟩).loadZ _
    rw [hload conn, hseg conn, chainFrom_append]
    refine ⟨h1, ?_, trivial⟩
    rw [TraceSegment.startPoint]
    rw [startPoint_recomputePoints tr.z0 tr.frequency conn ct v
      tr.currentImpedance [] hop]
    exact currentImpedance_eq_chainEnd tr
  · rw [hseg conn]
    simp
  · rw [hseg conn]
    intro s hs
    rcases List.mem_append.mp hs with h | h
    · exact h2 s h
    · rw [List.mem_singleton.mp h]
      exact hop

theorem buildTrace_preserves (tr : MatchingTrace) (ops : List ElementOp)
    (h1 : tr.chainInvariant) (h2 : ∀ s ∈ tr.segments, s.reactiveLC)
    (hops : ∀ op ∈ ops, op.ctype = ComponentType.Inductor ∨
      op.ctype = ComponentType.Capacitor) :
    (ops.foldl applyElementOp tr).chainInvariant ∧
      (ops.foldl applyElementOp tr).loadZ = tr.loadZ ∧
      (ops.foldl applyElementOp tr).segments.length =
        tr.segments.length + ops.length ∧
      ∀ s ∈ (ops.foldl applyElementOp tr).segments, s.reactiveLC := by
  induction ops generalizing tr with
  | nil => exact ⟨h1, rfl, rfl, h2⟩
  | cons op rest ih =>
      rw [List.foldl_cons]
      have hstep := applyElementOp_preserves tr op h1 h2
        (hops op (List.mem_cons_self op rest))
      have hrest := ih (applyElementOp tr op) hstep.1 hstep.2.2.2
        (fun o ho => hops o (List.mem_cons_of_mem op ho))
      refine ⟨hrest.1, ?_, ?_, hrest.2.2.2⟩
      · rw [hrest.2.1, hstep.2.1]
      · rw [hrest.2.2.1, hstep.2.2.1]
        simp only [List.length_cons]
        omega

theorem updateSegmentValue_preserves (tr : MatchingTrace) (i : ℤ) (v : ℝ)
    (h1 : tr.chainInvariant) (h2 : ∀ s ∈ tr.segments, s.reactiveLC) :
    (tr.updateSegmentValue i v).chainInvariant ∧
      (tr.updateSegmentValue i v).loadZ = tr.loadZ ∧
      (tr.updateSegmentValue i v).segments.length =
        tr.segments.length := by
  rw [MatchingTrace.updateSegmentValue]
  split_ifs with hrange
  · exact ⟨h1, rfl, rfl⟩
  · push_neg at hrange
    have hk : i.toNat < tr.segments.length := by
      rw [MatchingTrace.numSegments] at hrange
      omega
    cases hdrop : tr.segments.drop i.toNat with
    | nil =>
        exfalso
        have := congrArg List.length hdrop
        rw [List.length_drop] at this
        simp at this
        omega
    | cons s suffix =>
        simp only [hdrop]
        have hsub : ∀ t ∈ s :: suffix, t ∈ tr.segments := by
          intro t ht
          exact List.drop_subset i.toNat tr.segments (hdrop ▸ ht)
        have hgood : ∀ t ∈ ({ s with componentValue := v } :: suffix),
            t.reactiveLC := by
          intro t ht
          rcases List.mem_cons.mp ht with h | h
          · subst h
            exact h2 s (hsub s (List.mem_cons_self s suffix))
          · exact h2 t (hsub t (List.mem_cons_of_mem s h))
        refine ⟨?_, by trivial, ?_⟩
        · show chainFrom tr.loadZ _
          rw [chainFrom_append]
          refine ⟨chainFrom_take _ _ h1 _, ?_⟩
          have hstart :
              (if i.toNat = 0 then tr.loadZ
                else ((tr.segments.get? (i.toNat - 1)).getD
                  TraceSegment.mkDefault).endPoint.impedance) =
                chainEnd tr.loadZ (tr.segments.take i.toNat) := by
            cases hn : i.toNat with
            | zero => simp [chainEnd_nil]
            | succ m =>
                rw [if_neg (by omega)]
                rw [chainEnd_take tr.segments m tr.loadZ (by omega)]
                simp
          rw [← hstart]
          exact recomputeSeq_chainFrom tr.z0 tr.frequency _ _ hgood
        · rw [List.length_append, recomputeSeq_length]
          simp only [List.length_cons]
          have := congrArg List.length hdrop
          rw [List.length_drop] at this
          simp only [List.length_cons] at this
          rw [List.length_take]
          omega

/-- C1 (amended): for every MatchingTrace whose segments were produced by
calculateSeriesElement/calculateShuntElement for Inductor or Capacitor
components (Resistor excluded: its arcs floor-clamp resistance/conductance
at 0.001, which can displace a segment start), after updateSegmentValue(i, v)
for any index and value the chain invariant holds: segment 0 starts at the
load impedance and every segment j greater than 0 starts at the end
impedance of segment j-1; in particular after addSeriesElement then
addShuntElement then updateSegmentValue(0, v), segment 0's end impedance
equals segment 1's start impedance. -/
theorem c1_chain_invariant_after_update :
    (∀ (zs zl : ℂ) (z0 f : ℝ) (ops : List ElementOp),
      (∀ op ∈ ops, op.ctype = ComponentType.Inductor ∨
        op.ctype = ComponentType.Capacitor) →
      ∀ (i : ℤ) (v : ℝ),
        ((buildTrace zs zl z0 f ops).updateSegmentValue i v).chainInvariant) ∧
    (∀ (zs zl : ℂ) (z0 f : ℝ) (t1 t2 : ComponentType) (v1 v2 v : ℝ),
      (t1 = ComponentType.Inductor ∨ t1 = ComponentType.Capacitor) →
      (t2 = ComponentType.Inductor ∨ t2 = ComponentType.Capacitor) →
      ((((((⟨zs, zl, z0, f, []⟩ : MatchingTrace).addSeriesElement t1
        v1).addShuntElement t2 v2).updateSegmentValue 0 v).segments.get?
          1).getD TraceSegment.mkDefault).startPoint.impedance =
        ((((((⟨zs, zl, z0, f, []⟩ : MatchingTrace).addSeriesElement t1
          v1).addShuntElement t2 v2).updateSegmentValue 0 v).segments.get?
            0).getD TraceSegment.mkDefault).endPoint.impedance) := by
  have hmain : ∀ (zs zl : ℂ) (z0 f : ℝ) (ops : List ElementOp),
      (∀ op ∈ ops, op.ctype = ComponentType.Inductor ∨
        op.ctype = ComponentType.Capacitor) →
      ∀ (i : ℤ) (v : ℝ),
        ((buildTrace zs zl z0 f ops).updateSegmentValue i v).chainInvariant ∧
        ((buildTrace zs zl z0 f ops).updateSegmentValue i v).loadZ = zl ∧
        ((buildTrace zs zl z0 f ops).updateSegmentValue i
          v).segments.length = ops.length := by
    intro zs zl z0 f ops hops i v
    have hinit : (⟨zs, zl, z0, f, []⟩ : MatchingTrace).chainInvariant :=
      trivial
    have hb := buildTrace_preserves ⟨zs, zl, z0, f, []⟩ ops hinit
      (by intro s hs; simp at hs) hops
    have hu := updateSegmentValue_preserves (buildTrace zs zl z0 f ops) i v
      hb.1 hb.2.2.2
    refine ⟨hu.1, ?_, ?_⟩
    · rw [hu.2.1]
      exact hb.2.1
    · rw [hu.2.2, buildTrace, hb.2.2.1]
      simp
  constructor
  · intro zs zl z0 f ops hops i v
    exact (hmain zs zl z0 f ops hops i v).1
  · intro zs zl z0 f t1 t2 v1 v2 v h1 h2
    have hops : ∀ op ∈ ([⟨ConnectionType.Series, t1, v1⟩,
        ⟨ConnectionType.Shunt, t2, v2⟩] : List ElementOp),
        op.ctype = ComponentType.Inductor ∨
          op.ctype = ComponentType.Capacitor := by
      intro op hop
      rcases List.mem_cons.mp hop with rfl | hop
      · exact h1
      · rcases List.mem_cons.mp hop with rfl | hop
        · exact h2
        · simp at hop
    have hbuild : buildTrace zs zl z0 f
        [⟨ConnectionType.Series, t1, v1⟩, ⟨ConnectionType.Shunt, t2, v2⟩] =
          (((⟨zs, zl, z0, f, []⟩ : MatchingTrace).addSeriesElement t1
            v1).addShuntElement t2 v2) := rfl
    have h := hmain zs zl z0 f
      [⟨ConnectionType.Series, t1, v1⟩, ⟨ConnectionType.Shunt, t2, v2⟩]
      hops 0 v
    rw [hbuild] at h
    obtain ⟨hinv, hload, hlen⟩ := h
    obtain ⟨a, b, hab⟩ := List.length_eq_two.mp hlen
    rw [MatchingTrace.chainInvariant, hab] at hinv
    rw [hab]
    simp only [List.get?_cons_zero, List.get?_cons_succ, Option.getD_some]
    exact hinv.2.1

/-- Witness for C1 at load 75 + j50: a series inductor then a shunt
capacitor, then an update of segment 0. -/
theorem c1_witness :
    ((buildTrace 50 ⟨75, 50⟩ 50 1e9
      [⟨ConnectionType.Series, ComponentType.Inductor, 1e-9⟩,
       ⟨ConnectionType.Shunt, ComponentType.Capacitor, 1e-12⟩]).updateSegmentValue
        0 2e-9).chainInvariant := by
  apply c1_chain_invariant_after_update.1
  intro op hop
  rcases List.mem_cons.mp hop with rfl | hop
  · exact Or.inl rfl
  · rcases List.mem_cons.mp hop with rfl | hop
    · exact Or.inr rfl
    · simp at hop

/-- Counterexample for C1: with load impedance 2000 + j0, a single shunt
Resistor segment produced by calculateShuntElement, and updateSegmentValue(0,
100) (an in-range index), the chain invariant fails: the constant-B arc
clamps the conductance 1/2000 up to 0.001, so segment 0 starts at impedance
1000 + j0 instead of the load impedance 2000 + j0. -/
theorem c1_counterexample :
    ¬ ((buildTrace 50 ⟨2000, 0⟩ 50 1e9
      [⟨ConnectionType.Shunt, ComponentType.Resistor, 100⟩]).updateSegmentValue
        0 100).chainInvariant := by
  have hcs : (⟨50, ⟨2000, 0⟩, 50, 1e9, []⟩ :
      MatchingTrace).calculateShuntElement ComponentType.Resistor 100 =
        ⟨generateConstantBArc 50 1e9 ((1 : ℂ) / (⟨2000, 0⟩ : ℂ)) (1 / 100) 50,
          TraceType.ConstantB, ComponentType.Resistor, ConnectionType.Shunt,
          100⟩ := rfl
  have hb : buildTrace (50 : ℂ) ⟨2000, 0⟩ 50 1e9
      [⟨ConnectionType.Shunt, ComponentType.Resistor, 100⟩] =
        ⟨50, ⟨2000, 0⟩, 50, 1e9,
          [⟨generateConstantBArc 50 1e9 ((1 : ℂ) / (⟨2000, 0⟩ : ℂ)) (1 / 100)
              50, TraceType.ConstantB, ComponentType.Resistor,
            ConnectionType.Shunt, 100⟩]⟩ := by
    rw [show buildTrace (50 : ℂ) ⟨2000, 0⟩ 50 1e9
        [⟨ConnectionType.Shunt, ComponentType.Resistor, 100⟩] =
          (⟨50, ⟨2000, 0⟩, 50, 1e9, []⟩ : MatchingTrace).addSegment
            ((⟨50, ⟨2000, 0⟩, 50, 1e9, []⟩ :
              MatchingTrace).calculateShuntElement ComponentType.Resistor 100)
        from rfl, hcs]
    rfl
  have hguard : ¬ ((0 : ℤ) < 0 ∨
      (((buildTrace (50 : ℂ) ⟨2000, 0⟩ 50 1e9
        [⟨ConnectionType.Shunt, ComponentType.Resistor,
          100⟩]).numSegments : ℤ) ≤ 0)) := by
    rw [hb]
    norm_num [MatchingTrace.numSegments]
  intro h
  rw [MatchingTrace.chainInvariant, MatchingTrace.updateSegmentValue,
    if_neg hguard, hb] at h
  simp only [Int.toNat_zero, List.drop_zero, List.take_zero,
    List.nil_append, if_true] at h
  simp only [recomputeSeq] at h
  simp only [chainFrom] at h
  have h1 := h.1
  simp only [TraceSegment.startPoint, recomputePoints,
    generateConstantBArc] at h1
  rw [head?_map_range _ 50 (by norm_num)] at h1
  have hre : ((1 : ℂ) / (⟨2000, 0⟩ : ℂ)).re = 1 / 2000 := by
    rw [show ((⟨2000, 0⟩ : ℂ)) = (((2000 : ℝ)) : ℂ) from rfl, one_div,
      ← Complex.ofReal_inv, Complex.ofReal_re]
    norm_num
  have him : ((1 : ℂ) / (⟨2000, 0⟩ : ℂ)).im = 0 := by
    rw [show ((⟨2000, 0⟩ : ℂ)) = (((2000 : ℝ)) : ℂ) from rfl, one_div,
      ← Complex.ofReal_inv, Complex.ofReal_im]
  simp only [Option.getD_some, hre, him, Nat.cast_zero, zero_div,
    zero_mul, add_zero] at h1
  rw [if_pos (by norm_num)] at h1
  have h2 := congrArg Complex.re h1
  rw [show ((⟨0.001, 0⟩ : ℂ)) = (((0.001 : ℝ)) : ℂ) from rfl, one_div,
    ← Complex.ofReal_inv, Complex.ofReal_re] at h2
  norm_num at h2

end

end SmithTool
